import Mathlib

/-
  Verification of the CalPal mirror/reconciliation engine.

  Shallow embedding of the store rows, the atomic mirror upsert, the
  advisory-lock key derivation, the mirror-creation critical section, the
  retry wrapper around remote calls, the duplicate-resolution step, the
  consistency repair sweep and the orphaned-mirror sweep, together with
  theorems about the spec's claims on them.

  Modelling conventions:
  - the relational table `calendar_events` is a `List EventRow`; only the
    columns the verified code paths read or write are carried (audit-only
    timestamp columns such as `last_seen_at` / `updated_at` and unread
    columns such as `organizer_email` are omitted);
  - of the JSONB `metadata` map only the `source_event_id` key is carried,
    because it is the only key the verified code paths consult;
  - timestamps are `Nat` (seconds); `NOW()` becomes an explicit `now`
    parameter where a write stores it;
  - remote-service state is a `List RemoteEvent`; remote calls that can
    fail take the response sequence as an explicit function argument;
  - external hash primitives (Python `hash`, `hashlib.md5`) are taken as
    function parameters, since they are library code, not repository code.
-/

namespace CalPal

/-- A row of the `calendar_events` table (`src/calpal/core/db_manager.py`). -/
structure EventRow where
  event_id : String
  ical_uid : Option String
  summary : String
  description : String
  location : String
  start_time : Nat
  end_time : Nat
  source_calendar : String
  current_calendar : String
  event_type : String
  status : String
  last_action : String
  deleted_at : Option Nat
  do_not_mirror : Bool
  metadata_source_event_id : Option String
  is_all_day : Bool
deriving DecidableEq, Repr

/-- Row `r` is an active (not soft-deleted) mirror row for the pair
`(source_event_id, current_calendar)` — the target of the partial unique
index `ON ((metadata->>'source_event_id'), current_calendar)
WHERE metadata->>'source_event_id' IS NOT NULL AND deleted_at IS NULL`. -/
def activeMirrorMatch (r : EventRow) (sid cal : String) : Bool :=
  decide (r.metadata_source_event_id = some sid ∧
          r.current_calendar = cal ∧ r.deleted_at = none)

/-- Number of active store rows for a `(source_event_id, current_calendar)`
pair. -/
def activeCount (db : List EventRow) (sid cal : String) : Nat :=
  db.countP (fun r => activeMirrorMatch r sid cal)

/-- The `DO UPDATE SET` arm of `DatabaseManager.upsert_mirror_event`:
only the mutable presentation fields are overwritten from the excluded
row, and `last_action` becomes `'updated'`. -/
def updateMutable (r new : EventRow) : EventRow :=
  { r with
    summary := new.summary
    description := new.description
    location := new.location
    start_time := new.start_time
    end_time := new.end_time
    last_action := "updated" }

/-- `DatabaseManager.upsert_mirror_event`
(`src/calpal/core/db_manager.py`, lines 285-353): an
`INSERT ... ON CONFLICT ((metadata->>'source_event_id'), current_calendar)
WHERE metadata->>'source_event_id' IS NOT NULL AND deleted_at IS NULL
DO UPDATE` against the partial unique index.  A proposed row whose
`source_event_id` is null is outside the index and inserts plainly; one
whose pair already has an active row updates that row's mutable fields
in place; otherwise it inserts.  The branch is one atomic store
primitive, so it is modelled as one state transition. -/
def upsert_mirror_event (db : List EventRow) (new : EventRow) : List EventRow :=
  match new.metadata_source_event_id with
  | none => db ++ [new]
  | some sid =>
    if db.any (fun r => activeMirrorMatch r sid new.current_calendar) then
      db.map (fun r =>
        if activeMirrorMatch r sid new.current_calendar then updateMutable r new else r)
    else db ++ [new]

/-- `DatabaseManager.advisory_lock` key derivation
(`src/calpal/core/db_manager.py`, line 72): `hash(key) % (2**31 - 1)`.
Python's `hash` is an external primitive, so it is a parameter; Python's
`%` on a positive modulus agrees with `Int.emod`. -/
def advisory_lock_id (pyHash : String → Int) (key : String) : Int :=
  pyHash key % (2 ^ 31 - 1)

theorem activeMirrorMatch_iff (r : EventRow) (sid cal : String) :
    activeMirrorMatch r sid cal = true ↔
      r.metadata_source_event_id = some sid ∧
        r.current_calendar = cal ∧ r.deleted_at = none := by
  simp [activeMirrorMatch]

theorem activeMirrorMatch_updateMutable (r new : EventRow) (sid cal : String) :
    activeMirrorMatch (updateMutable r new) sid cal = activeMirrorMatch r sid cal := rfl

/-- The conflict-update arm of the upsert leaves every pair's count of
active rows unchanged: the updated row keeps its identity, calendar and
liveness. -/
theorem activeCount_map_update (db : List EventRow) (new : EventRow) (sid' cal' : String) :
    ∀ s c, activeCount
        (db.map (fun r =>
          if activeMirrorMatch r sid' cal' then updateMutable r new else r)) s c
      = activeCount db s c := by
  intro s c
  unfold activeCount
  rw [List.countP_map]
  apply List.countP_congr
  intro r _
  by_cases h : activeMirrorMatch r sid' cal' = true <;>
    simp [Function.comp, h, activeMirrorMatch_updateMutable]

/-- If the row to upsert carries a `source_event_id` and an active row for
its pair already exists, `upsert_mirror_event` takes the `DO UPDATE` arm:
a pointwise map, no insertion. -/
theorem upsert_update_of_active (db : List EventRow) (new : EventRow) (sid : String)
    (hsid : new.metadata_source_event_id = some sid)
    (hex : 0 < activeCount db sid new.current_calendar) :
    upsert_mirror_event db new =
      db.map (fun r =>
        if activeMirrorMatch r sid new.current_calendar then updateMutable r new else r) := by
  have hany : db.any (fun r => activeMirrorMatch r sid new.current_calendar) = true := by
    rw [List.any_eq_true]
    exact List.countP_pos_iff.mp hex
  unfold upsert_mirror_event
  rw [hsid]
  simp [hany]

/-- If no active row for the pair exists, `upsert_mirror_event` inserts. -/
theorem upsert_insert_of_no_active (db : List EventRow) (new : EventRow) (sid : String)
    (hsid : new.metadata_source_event_id = some sid)
    (hex : activeCount db sid new.current_calendar = 0) :
    upsert_mirror_event db new = db ++ [new] := by
  have hany : db.any (fun r => activeMirrorMatch r sid new.current_calendar) = false := by
    rw [← Bool.not_eq_true, List.any_eq_true]
    intro ⟨r, hr, hmatch⟩
    exact absurd hmatch (List.countP_eq_zero.mp hex r hr)
  unfold upsert_mirror_event
  rw [hsid]
  simp [hany]

/-- An upserted active mirror row leaves exactly one active row for its own
pair, as long as the store satisfied the uniqueness invariant before. -/
theorem activeCount_upsert_self (db : List EventRow) (new : EventRow) (sid : String)
    (hsid : new.metadata_source_event_id = some sid)
    (hdel : new.deleted_at = none)
    (hinv : activeCount db sid new.current_calendar ≤ 1) :
    activeCount (upsert_mirror_event db new) sid new.current_calendar = 1 := by
  rcases Nat.eq_zero_or_pos (activeCount db sid new.current_calendar) with h0 | hpos
  · rw [upsert_insert_of_no_active db new sid hsid h0]
    unfold activeCount at h0 ⊢
    rw [List.countP_append, h0, List.countP_singleton]
    have : activeMirrorMatch new sid new.current_calendar = true :=
      (activeMirrorMatch_iff _ _ _).mpr ⟨hsid, rfl, hdel⟩
    simp [this]
  · rw [upsert_update_of_active db new sid hsid hpos,
        activeCount_map_update]
    omega

/-- One upsert never breaks the uniqueness invariant, for any pair. -/
theorem activeCount_upsert_le (db : List EventRow) (new : EventRow)
    (hinv : ∀ s c, activeCount db s c ≤ 1) :
    ∀ s c, activeCount (upsert_mirror_event db new) s c ≤ 1 := by
  intro s c
  cases hm : new.metadata_source_event_id with
  | none =>
    have hins : upsert_mirror_event db new = db ++ [new] := by
      unfold upsert_mirror_event
      rw [hm]
    rw [hins]
    have hno : activeMirrorMatch new s c = false := by
      rw [← Bool.not_eq_true, activeMirrorMatch_iff]
      intro ⟨hmeta, _, _⟩
      rw [hm] at hmeta
      cases hmeta
    have hdb := hinv s c
    unfold activeCount at hdb ⊢
    rw [List.countP_append, List.countP_singleton, hno]
    simpa using hdb
  | some sid =>
    rcases Nat.eq_zero_or_pos (activeCount db sid new.current_calendar) with h0 | hpos
    · rw [upsert_insert_of_no_active db new sid hm h0]
      have hdb := hinv s c
      unfold activeCount at hdb ⊢
      rw [List.countP_append, List.countP_singleton]
      by_cases hmatch : activeMirrorMatch new s c = true
      · obtain ⟨hmeta, hcal, _⟩ := (activeMirrorMatch_iff _ _ _).mp hmatch
        rw [hm] at hmeta
        injection hmeta with hs
        rw [hs, hcal] at h0
        unfold activeCount at h0
        rw [h0, if_pos hmatch]
      · rw [if_neg hmatch]
        omega
    · rw [upsert_update_of_active db new sid hm hpos, activeCount_map_update]
      exact hinv s c

/-- Claim C1: two sequential calls of the store's mirror upsert with the
same `(metadata.source_event_id, current_calendar)` pair never leave two
active rows for that pair: the upsert preserves the uniqueness invariant,
the pair ends with exactly one active row, and the second call resolves as
the `DO UPDATE` arm of the atomic `ON CONFLICT` upsert — a pointwise
update of the existing row's mutable fields that inserts nothing (the row
count is unchanged).  The branch decision and the write are one store
primitive, modelled as a single state transition, which is what delegating
to the native atomic upsert (instead of check-then-insert) provides under
concurrency. -/
theorem C1_upsert_mirror_event_unique (db : List EventRow) (e1 e2 : EventRow) (sid cal : String)
    (h1 : e1.metadata_source_event_id = some sid)
    (h2 : e2.metadata_source_event_id = some sid)
    (hc1 : e1.current_calendar = cal) (hc2 : e2.current_calendar = cal)
    (hd1 : e1.deleted_at = none)
    (hinv : ∀ s c, activeCount db s c ≤ 1) :
    (∀ s c, activeCount (upsert_mirror_event (upsert_mirror_event db e1) e2) s c ≤ 1) ∧
    activeCount (upsert_mirror_event (upsert_mirror_event db e1) e2) sid cal = 1 ∧
    upsert_mirror_event (upsert_mirror_event db e1) e2 =
      (upsert_mirror_event db e1).map (fun r =>
        if activeMirrorMatch r sid cal then updateMutable r e2 else r) ∧
    (upsert_mirror_event (upsert_mirror_event db e1) e2).length
      = (upsert_mirror_event db e1).length := by
  have hinv1 : ∀ s c, activeCount (upsert_mirror_event db e1) s c ≤ 1 :=
    activeCount_upsert_le db e1 hinv
  have hone : activeCount (upsert_mirror_event db e1) sid cal = 1 := by
    have := activeCount_upsert_self db e1 sid h1 hd1 (by rw [hc1]; exact hinv sid cal)
    rwa [hc1] at this
  have hupd : upsert_mirror_event (upsert_mirror_event db e1) e2 =
      (upsert_mirror_event db e1).map (fun r =>
        if activeMirrorMatch r sid cal then updateMutable r e2 else r) := by
    have := upsert_update_of_active (upsert_mirror_event db e1) e2 sid h2
      (by rw [hc2]; omega)
    rwa [hc2] at this
  refine ⟨?_, ?_, hupd, ?_⟩
  · exact activeCount_upsert_le _ e2 hinv1
  · rw [hupd, activeCount_map_update]
    exact hone
  · rw [hupd, List.length_map]

/-- A sample row used to witness the claims' theorems on concrete data. -/
def sampleMirrorRow : EventRow :=
  { event_id := "g-abc"
    ical_uid := some "uid-1"
    summary := "Advising"
    description := ""
    location := ""
    start_time := 1000
    end_time := 1600
    source_calendar := "personal"
    current_calendar := "work"
    event_type := "personal_mirror"
    status := "active"
    last_action := "created"
    deleted_at := none
    do_not_mirror := false
    metadata_source_event_id := some "src-1"
    is_all_day := false }

theorem C1_upsert_mirror_event_unique_witness :
    activeCount
        (upsert_mirror_event (upsert_mirror_event [] sampleMirrorRow)
          { sampleMirrorRow with summary := "Advising v2" }) "src-1" "work" ≤ 1 ∧
    activeCount
        (upsert_mirror_event (upsert_mirror_event [] sampleMirrorRow)
          { sampleMirrorRow with summary := "Advising v2" }) "src-1" "work" = 1 ∧
    upsert_mirror_event (upsert_mirror_event [] sampleMirrorRow)
        { sampleMirrorRow with summary := "Advising v2" } =
      (upsert_mirror_event [] sampleMirrorRow).map (fun r =>
        if activeMirrorMatch r "src-1" "work" then
          updateMutable r { sampleMirrorRow with summary := "Advising v2" } else r) ∧
    (upsert_mirror_event (upsert_mirror_event [] sampleMirrorRow)
        { sampleMirrorRow with summary := "Advising v2" }).length
      = (upsert_mirror_event [] sampleMirrorRow).length := by
  have h := C1_upsert_mirror_event_unique [] sampleMirrorRow
    { sampleMirrorRow with summary := "Advising v2" } "src-1" "work"
    rfl rfl rfl rfl rfl (by intro s c; simp [activeCount])
  exact ⟨h.1 "src-1" "work", h.2.1, h.2.2.1, h.2.2.2⟩

/-- Claim C10: the advisory-lock helper maps every key to
`hash(key) % (2^31 - 1)`, an integer in `[0, 2^31 - 2]`, and — whatever
the external hash function is — the key-to-identifier mapping cannot be
injective, so two distinct lock keys exist that share one lock identifier
and therefore exclude each other. -/
theorem C10_advisory_lock_id_range_and_collision :
    (∀ (pyHash : String → Int) (key : String),
        0 ≤ advisory_lock_id pyHash key ∧
          advisory_lock_id pyHash key ≤ 2 ^ 31 - 2) ∧
    (∀ pyHash : String → Int, ∃ k1 k2 : String,
        k1 ≠ k2 ∧ advisory_lock_id pyHash k1 = advisory_lock_id pyHash k2) := by
  have hmod : (2 : Int) ^ 31 - 1 = 2147483647 := by norm_num
  constructor
  · intro pyHash key
    unfold advisory_lock_id
    constructor
    · exact Int.emod_nonneg _ (by rw [hmod]; norm_num)
    · have := Int.emod_lt_of_pos (pyHash key) (b := 2 ^ 31 - 1) (by rw [hmod]; norm_num)
      omega
  · intro pyHash
    have hrange : ∀ key : String, (advisory_lock_id pyHash key).toNat < 2147483647 := by
      intro key
      have h0 : 0 ≤ advisory_lock_id pyHash key :=
        Int.emod_nonneg _ (by rw [hmod]; norm_num)
      have h1 : advisory_lock_id pyHash key < 2 ^ 31 - 1 :=
        Int.emod_lt_of_pos (pyHash key) (by rw [hmod]; norm_num)
      rw [hmod] at h1
      omega
    obtain ⟨k1, k2, hne, heq⟩ := Finite.exists_ne_map_eq_of_infinite
      (fun key : String =>
        (⟨(advisory_lock_id pyHash key).toNat, hrange key⟩ : Fin 2147483647))
    refine ⟨k1, k2, hne, ?_⟩
    have h1 : 0 ≤ advisory_lock_id pyHash k1 :=
      Int.emod_nonneg _ (by rw [hmod]; norm_num)
    have h2 : 0 ≤ advisory_lock_id pyHash k2 :=
      Int.emod_nonneg _ (by rw [hmod]; norm_num)
    have htox : (advisory_lock_id pyHash k1).toNat = (advisory_lock_id pyHash k2).toNat :=
      congrArg Fin.val heq
    omega

/-! ## Remote-call retry wrapper (`src/src/work_calendar_reconciler.py`) -/

/-- The remote service's response to one attempt of one call: either a
successful `execute()` result or an `HttpError` with a status code and a
flag for whether the error text mentions `rateLimitExceeded`. -/
inductive ApiResponse where
  | ok (payload : Nat)
  | http (code : Nat) (rateLimitMsg : Bool)
deriving DecidableEq, Repr

/-- What `_api_call_with_retry` hands back to its caller: a result value,
the Python `None` (returned both for 404/410 and for an exhausted retry
budget — the two are indistinguishable to the caller, exactly as in the
source), or a re-raised HTTP error. -/
inductive CallOutcome where
  | value (payload : Nat)
  | noneResult
  | raised (code : Nat)
deriving DecidableEq, Repr

/-- The retry loop of `WorkCalendarReconciler._api_call_with_retry`
(lines 81-128): per attempt, 429 or a `rateLimitExceeded` message backs
off `base * 2^attempt` and retries; 404/410 returns `None`; 5xx backs off
and retries; any other HTTP status re-raises; running out of attempts
returns `None`.  The second component collects the backoff sleeps. -/
def retryFrom (resp : Nat → ApiResponse) (baseBackoff : Nat) :
    Nat → Nat → CallOutcome × List Nat
  | _, 0 => (.noneResult, [])
  | attempt, remaining + 1 =>
    match resp attempt with
    | .ok v => (.value v, [])
    | .http code rateLimitMsg =>
      if code = 429 ∨ rateLimitMsg then
        let rest := retryFrom resp baseBackoff (attempt + 1) remaining
        (rest.1, baseBackoff * 2 ^ attempt :: rest.2)
      else if code = 404 ∨ code = 410 then (.noneResult, [])
      else if 500 ≤ code then
        let rest := retryFrom resp baseBackoff (attempt + 1) remaining
        (rest.1, baseBackoff * 2 ^ attempt :: rest.2)
      else (.raised code, [])

/-- `_api_call_with_retry` with the reconciler's configuration:
`max_retries = 3`, `base_backoff = 2`. -/
def api_call_with_retry (resp : Nat → ApiResponse) : CallOutcome × List Nat :=
  retryFrom resp 2 0 3

/-- `WorkCalendarReconciler._mark_event_removed` (lines 575-598):
`UPDATE ... SET last_action = :action WHERE event_id = :event_id AND
current_calendar = :calendar_id`. -/
def mark_event_removed (db : List EventRow) (eid cal action : String) : List EventRow :=
  db.map (fun r =>
    if r.event_id = eid ∧ r.current_calendar = cal then
      { r with last_action := action } else r)

/-- `WorkCalendarReconciler.get_deleted_events_from_db` (lines 155-179):
soft-deleted rows of the work calendar not yet propagated
(`last_action NOT IN ('removed_from_google', 'already_removed')`),
`LIMIT 500`; the `ORDER BY deleted_at` is modelled as store order. -/
def get_deleted_events_from_db (db : List EventRow) (work : String) : List EventRow :=
  (db.filter (fun r => decide (r.current_calendar = work ∧ r.deleted_at ≠ none ∧
      r.status = "deleted" ∧ r.last_action ≠ "removed_from_google" ∧
      r.last_action ≠ "already_removed"))).take 500

/-- Per-item pass statistics of `reconcile_deleted_events`. -/
structure DeletedStats where
  removed : Nat
  already_gone : Nat
  errors : Nat
deriving DecidableEq, Repr

/-- One iteration of the loop in
`WorkCalendarReconciler.reconcile_deleted_events` (lines 538-568): issue
the remote delete; a returned value counts as removed and marks the row
`removed_from_google`; the Python `None` counts as already gone and marks
the row `already_removed`; a raised error is caught and tallied as an
item-level error. -/
def delete_event_step (resp : String → Nat → ApiResponse) (work : String)
    (acc : DeletedStats × List EventRow) (e : EventRow) : DeletedStats × List EventRow :=
  match (api_call_with_retry (resp e.event_id)).1 with
  | .value _ =>
      ({ acc.1 with removed := acc.1.removed + 1 },
        mark_event_removed acc.2 e.event_id work "removed_from_google")
  | .noneResult =>
      ({ acc.1 with already_gone := acc.1.already_gone + 1 },
        mark_event_removed acc.2 e.event_id work "already_removed")
  | .raised _ =>
      ({ acc.1 with errors := acc.1.errors + 1 }, acc.2)

/-- `WorkCalendarReconciler.reconcile_deleted_events` (lines 521-573),
with the per-event remote response sequence passed in explicitly. -/
def reconcile_deleted_events (resp : String → Nat → ApiResponse) (work : String)
    (db : List EventRow) : DeletedStats × List EventRow :=
  (get_deleted_events_from_db db work).foldl (delete_event_step resp work) (⟨0, 0, 0⟩, db)

/-- A soft-deleted store row awaiting propagation, used as concrete input. -/
def sampleDeletedRow : EventRow :=
  { sampleMirrorRow with
    event_id := "g-del"
    status := "deleted"
    deleted_at := some 500
    last_action := "deleted" }

/-- A remote service that answers every attempt of every call with 429. -/
def alwaysRateLimited : String → Nat → ApiResponse := fun _ _ => .http 429 false

/-- Claim C4, failing input: a delete whose every attempt is rate limited.
The call does retry with exponential backoff (sleeps 2, 4, 8) and stops
after the bound of 3 attempts — but the exhausted budget comes back as the
same `None` that encodes 404/410, so the pass counts the item as
`already_gone` (zero errors) and marks the store row `already_removed`,
conflating retry exhaustion with success instead of surfacing a per-item
error as the spec requires. -/
theorem C4_retry_exhaustion_conflated_with_success :
    api_call_with_retry (alwaysRateLimited "g-del") = (.noneResult, [2, 4, 8]) ∧
    reconcile_deleted_events alwaysRateLimited "work" [sampleDeletedRow] =
      (⟨0, 1, 0⟩, [{ sampleDeletedRow with last_action := "already_removed" }]) := by
  constructor
  · rfl
  · rfl

/-- Claim C5: a 404 or 410 on a remote delete is returned immediately —
no backoff, no retry (the sleep list is empty) — and the pass treats it as
the goal state: the item is tallied `already_gone`, the error counter is
untouched, and the store row is marked `already_removed` rather than left
for a retry. -/
theorem C5_not_found_treated_as_success (resp : String → Nat → ApiResponse)
    (e : EventRow) (c : Nat) (stats : DeletedStats) (db : List EventRow) (work : String)
    (h0 : resp e.event_id 0 = .http c false) (hc : c = 404 ∨ c = 410) :
    api_call_with_retry (resp e.event_id) = (.noneResult, []) ∧
    delete_event_step resp work (stats, db) e =
      ({ stats with already_gone := stats.already_gone + 1 },
        mark_event_removed db e.event_id work "already_removed") := by
  have hcall : api_call_with_retry (resp e.event_id) = (.noneResult, []) := by
    rcases hc with rfl | rfl <;> simp [api_call_with_retry, retryFrom, h0]
  refine ⟨hcall, ?_⟩
  unfold delete_event_step
  rw [hcall]

theorem C5_not_found_treated_as_success_witness :
    api_call_with_retry
        ((fun _ _ => ApiResponse.http 404 false) sampleDeletedRow.event_id) =
      (.noneResult, []) ∧
    delete_event_step (fun _ _ => ApiResponse.http 404 false) "work"
        (⟨0, 0, 0⟩, [sampleDeletedRow]) sampleDeletedRow =
      ({ (⟨0, 0, 0⟩ : DeletedStats) with already_gone := 0 + 1 },
        mark_event_removed [sampleDeletedRow] sampleDeletedRow.event_id "work"
          "already_removed") :=
  C5_not_found_treated_as_success (fun _ _ => ApiResponse.http 404 false)
    sampleDeletedRow 404 ⟨0, 0, 0⟩ [sampleDeletedRow] "work" rfl (Or.inl rfl)

/-! ## Duplicate resolution on active events
(`src/src/work_calendar_reconciler.py`) -/

/-- A remote calendar event as indexed by `fetch_all_google_events`:
remote id, summary, start rounded to the minute, and the remote creation
timestamp (present on every fetched event but never consulted by the
reconciler). -/
structure GEvent where
  id : String
  summary : String
  start_minute : Nat
  created : Nat
deriving DecidableEq, Repr

/-- `WorkCalendarReconciler.find_events_in_index` (lines 257-281): the
db event id first when the by-id index holds it, then every fetched event
sharing `(summary, start-to-the-minute)`, in listing order, skipping
falsy ids and ids already collected. -/
def find_events_in_index (gevents : List GEvent) (event_id summary : String)
    (startMin : Nat) : List String :=
  let init := if gevents.any (fun e => decide (e.id = event_id ∧ e.id ≠ "")) then
    [event_id] else []
  (gevents.filter (fun e => decide (e.summary = summary ∧ e.start_minute = startMin))).foldl
    (fun acc e => if e.id ≠ "" ∧ e.id ∉ acc then acc ++ [e.id] else acc) init

/-- What one db event's check in `reconcile_active_events` decides. -/
inductive ActiveResolution where
  | missing
  | ok
  | dedup (keep : String) (delete : List String)
deriving DecidableEq, Repr

/-- The per-db-event branch of `WorkCalendarReconciler.reconcile_active_events`
(lines 304-349): no remote instance is missing; one is fine; more than one
keeps `event_id` when it is among the matches, otherwise the first entry of
the index list (`google_event_ids[0]`), and deletes all others. -/
def resolve_active_event (gevents : List GEvent) (event_id summary : String)
    (startMin : Nat) : ActiveResolution :=
  let ids := find_events_in_index gevents event_id summary startMin
  if ids.length = 0 then .missing
  else if ids.length = 1 then .ok
  else
    let keep := if event_id ∈ ids then event_id else ids.headD ""
    .dedup keep (ids.filter (fun i => decide (i ≠ keep)))

/-- Two remote duplicates of one db event: the first in listing order was
created later (timestamp 100) than the second (timestamp 50). -/
def gdupEvents : List GEvent :=
  [{ id := "g1", summary := "Meet", start_minute := 10, created := 100 },
   { id := "g2", summary := "Meet", start_minute := 10, created := 50 }]

/-- Claim C8 is false as stated: with duplicates none of which carries the
db record's external id `"dbx"`, the earliest-created duplicate is `"g2"`,
yet the pass keeps `"g1"` — the first in listing order — and deletes
`"g2"`.  The fallback tie-break is list position, not creation
timestamp. -/
theorem C8_counterexample_keeps_listing_order :
    gdupEvents.all (fun e => decide (e.id ≠ "dbx")) = true ∧
    (gdupEvents.filter (fun e => decide (e.created < 100))).map GEvent.id = ["g2"] ∧
    resolve_active_event gdupEvents "dbx" "Meet" 10 =
      .dedup "g1" ["g2"] := by decide

/-- Claim C8 as amended: when a db record matches more than one remote
event, the pass keeps exactly one — the one equal to the record's stored
external id when that id is among the matches, otherwise the first match
in the fetched listing order — and deletes all the others: the kept id is
a match, is not deleted, and every other match is deleted. -/
theorem C8_amended_duplicate_tiebreak (gevents : List GEvent)
    (event_id summary : String) (startMin : Nat) (keep : String) (ds : List String)
    (h : resolve_active_event gevents event_id summary startMin = .dedup keep ds) :
    keep ∈ find_events_in_index gevents event_id summary startMin ∧
    keep ∉ ds ∧
    (∀ i ∈ find_events_in_index gevents event_id summary startMin, i = keep ∨ i ∈ ds) ∧
    (∀ i ∈ ds, i ∈ find_events_in_index gevents event_id summary startMin ∧ i ≠ keep) ∧
    (event_id ∈ find_events_in_index gevents event_id summary startMin →
      keep = event_id) ∧
    (event_id ∉ find_events_in_index gevents event_id summary startMin →
      keep = (find_events_in_index gevents event_id summary startMin).headD "") := by
  unfold resolve_active_event at h
  set ids := find_events_in_index gevents event_id summary startMin with hids
  by_cases h0 : ids.length = 0
  · rw [if_pos h0] at h
    cases h
  rw [if_neg h0] at h
  by_cases h1 : ids.length = 1
  · rw [if_pos h1] at h
    cases h
  rw [if_neg h1] at h
  injection h with hkeep hds
  have hkeep_mem : (if event_id ∈ ids then event_id else ids.headD "") ∈ ids := by
    by_cases hin : event_id ∈ ids
    · rwa [if_pos hin]
    · rw [if_neg hin]
      cases hc : ids with
      | nil => rw [hc] at h0; simp at h0
      | cons a t => simp [hc]
  rw [hkeep] at hds hkeep_mem
  refine ⟨hkeep_mem, ?_, ?_, ?_, ?_, ?_⟩
  · intro hmem
    rw [← hds] at hmem
    have := List.mem_filter.mp hmem
    simp at this
  · intro i hi
    by_cases hik : i = keep
    · exact Or.inl hik
    · refine Or.inr ?_
      rw [← hds]
      refine List.mem_filter.mpr ⟨hi, ?_⟩
      simpa using hik
  · intro i hi
    rw [← hds] at hi
    have := List.mem_filter.mp hi
    refine ⟨this.1, ?_⟩
    simpa using this.2
  · intro hin
    rw [← hkeep, if_pos hin]
  · intro hin
    rw [← hkeep, if_neg hin]

theorem C8_amended_duplicate_tiebreak_witness :
    "g1" ∈ find_events_in_index gdupEvents "dbx" "Meet" 10 ∧
    "g1" ∉ ["g2"] ∧
    (∀ i ∈ find_events_in_index gdupEvents "dbx" "Meet" 10, i = "g1" ∨ i ∈ ["g2"]) ∧
    (∀ i ∈ ["g2"], i ∈ find_events_in_index gdupEvents "dbx" "Meet" 10 ∧ i ≠ "g1") ∧
    ("dbx" ∈ find_events_in_index gdupEvents "dbx" "Meet" 10 → "g1" = "dbx") ∧
    ("dbx" ∉ find_events_in_index gdupEvents "dbx" "Meet" 10 →
      "g1" = (find_events_in_index gdupEvents "dbx" "Meet" 10).headD "") :=
  C8_amended_duplicate_tiebreak gdupEvents "dbx" "Meet" 10 "g1" ["g2"] (by decide)

/-! ## Consistency repair sweep (`src/src/work_calendar_reconciler.py`) -/

/-- `WorkCalendarReconciler.fix_data_inconsistencies` (lines 363-398):
`UPDATE calendar_events SET status = 'deleted' WHERE deleted_at IS NOT
NULL AND status != 'deleted' AND current_calendar = :work_calendar`. -/
def fix_data_inconsistencies (work : String) (db : List EventRow) : List EventRow :=
  db.map (fun r =>
    if r.deleted_at ≠ none ∧ r.status ≠ "deleted" ∧ r.current_calendar = work then
      { r with status := "deleted" } else r)

/-- A work-calendar row whose fields disagree in the direction the sweep
does not repair: `status = deleted` but `deleted_at` null. -/
def statusOnlyDeletedRow : EventRow :=
  { sampleMirrorRow with status := "deleted", deleted_at := none }

/-- A row off the work calendar that disagrees in the repaired direction. -/
def offCalendarDriftRow : EventRow :=
  { sampleMirrorRow with
    event_id := "g-off"
    current_calendar := "other-cal"
    deleted_at := some 5
    status := "active" }

/-- Claim C9 is false as stated, in two ways.  A work-calendar row with
`status = deleted` but `deleted_at` null disagrees in the second
direction, yet the sweep returns it unchanged (its status is not forced to
match its null `deleted_at`).  And a row with `deleted_at` set but
`status = active` on another calendar also survives, because the `UPDATE`
is scoped to the work calendar — so the implication is not restored on all
reconciled data. -/
theorem C9_counterexample_one_directional_repair :
    statusOnlyDeletedRow.status = "deleted" ∧
    statusOnlyDeletedRow.deleted_at = none ∧
    statusOnlyDeletedRow.current_calendar = "work" ∧
    offCalendarDriftRow.deleted_at ≠ none ∧
    offCalendarDriftRow.status ≠ "deleted" ∧
    fix_data_inconsistencies "work" [statusOnlyDeletedRow, offCalendarDriftRow] =
      [statusOnlyDeletedRow, offCalendarDriftRow] := by decide

/-- Claim C9 as amended: the sweep repairs exactly the one direction it
queries for, and only on the work calendar: afterwards every work-calendar
row with `deleted_at` set has `status = deleted`; rows already consistent,
rows on other calendars, and rows with `status = deleted` (whatever their
`deleted_at`, i.e. the unrepaired direction) pass through unchanged; no
row is added or removed. -/
theorem C9_amended_repair_sweep (work : String) (db : List EventRow) :
    (∀ r ∈ fix_data_inconsistencies work db,
        r.current_calendar = work → r.deleted_at ≠ none → r.status = "deleted") ∧
    (∀ r ∈ db,
        (r.deleted_at = none ∨ r.current_calendar ≠ work ∨ r.status = "deleted") →
        r ∈ fix_data_inconsistencies work db) ∧
    (fix_data_inconsistencies work db).length = db.length := by
  refine ⟨?_, ?_, ?_⟩
  · intro r hr hcal hda
    obtain ⟨r0, hr0, hmap⟩ := List.mem_map.mp hr
    by_cases hcond : r0.deleted_at ≠ none ∧ r0.status ≠ "deleted" ∧
        r0.current_calendar = work
    · rw [if_pos hcond] at hmap
      rw [← hmap]
    · rw [if_neg hcond] at hmap
      subst hmap
      by_cases hst : r0.status = "deleted"
      · exact hst
      · exact absurd ⟨hda, hst, hcal⟩ hcond
  · intro r hr hcons
    have hid : (if r.deleted_at ≠ none ∧ r.status ≠ "deleted" ∧
        r.current_calendar = work then { r with status := "deleted" } else r) = r := by
      rw [if_neg]
      intro ⟨hda, hst, hcal⟩
      rcases hcons with h | h | h
      · exact hda h
      · exact h hcal
      · exact hst h
    rw [← hid]
    exact List.mem_map.mpr ⟨r, hr, rfl⟩
  · exact List.length_map _ _

theorem C9_amended_repair_sweep_witness :
    (∀ r ∈ fix_data_inconsistencies "work" [statusOnlyDeletedRow],
        r.current_calendar = "work" → r.deleted_at ≠ none → r.status = "deleted") ∧
    (∀ r ∈ [statusOnlyDeletedRow],
        (r.deleted_at = none ∨ r.current_calendar ≠ "work" ∨ r.status = "deleted") →
        r ∈ fix_data_inconsistencies "work" [statusOnlyDeletedRow]) ∧
    (fix_data_inconsistencies "work" [statusOnlyDeletedRow]).length =
      [statusOnlyDeletedRow].length :=
  C9_amended_repair_sweep "work" [statusOnlyDeletedRow]

/-! ## Mirror creation (`src/src/personal_family_mirror.py`) -/

/-- A remote calendar event together with the provenance metadata
(`extendedProperties.private.source_event_id`) the mirror service writes
at creation and reads back when searching. -/
structure RemoteEvent where
  id : String
  calendar : String
  summary : String
  start_time : Nat
  end_time : Nat
  source_event_id : Option String
deriving DecidableEq, Repr

/-- `PersonalFamilyMirror.check_do_not_mirror` (lines 82-100):
`SELECT do_not_mirror FROM calendar_events WHERE ical_uid = :ical_uid AND
event_type = :event_type AND do_not_mirror = TRUE LIMIT 1`.  SQL equality
against a NULL parameter matches nothing, hence the `none` case. -/
def check_do_not_mirror (db : List EventRow) (uid : Option String) (etype : String) : Bool :=
  match uid with
  | none => false
  | some u => db.any (fun r =>
      decide (r.ical_uid = some u ∧ r.event_type = etype ∧ r.do_not_mirror = true))

/-- `PersonalFamilyMirror.find_mirror_on_google_calendar` (lines 213-244):
list the target calendar's events in `[start, start + 1 minute)` matching
the free-text query `q` (the service's full-text match is modelled as
summary equality; an empty `q` matches everything), and return the id of
the first whose private `source_event_id` equals the source's id. -/
def find_mirror_on_google_calendar (remote : List RemoteEvent) (target sid : String)
    (startT : Nat) (q : String) : Option String :=
  ((remote.filter (fun ev => decide (ev.calendar = target ∧ startT ≤ ev.start_time ∧
      ev.start_time < startT + 60 ∧ (q = "" ∨ ev.summary = q)))).find?
    (fun ev => decide (ev.source_event_id = some sid))).map (fun ev => ev.id)

/-- The free-text query `mirror_calendar` passes to the search:
the mirror's summary, except that `'Busy'` is never searched for
(`q=summary if summary != 'Busy' else ''`). -/
def mirrorQuery (busy : Bool) (src : EventRow) : String :=
  let summary := if busy then "Busy" else src.summary
  if summary = "Busy" then "" else summary

/-- The store row `mirror_calendar` records for a mirror (both the
adopt-existing arm and the create arm build the same dict, differing only
in the remote id): busy mirrors are titled `Busy` with blank
description/location, `metadata.source_event_id` points at the source,
`status = active`; `last_action` and `do_not_mirror` take the store
defaults. -/
def mirrorRow (gid : String) (src : EventRow) (srcCal target etype : String)
    (busy : Bool) : EventRow :=
  { event_id := gid
    ical_uid := src.ical_uid
    summary := if busy then "Busy" else src.summary
    description := if busy then "" else src.description
    location := if busy then "" else src.location
    start_time := src.start_time
    end_time := src.end_time
    source_calendar := srcCal
    current_calendar := target
    event_type := etype ++ (if busy then "_work_mirror" else "_mirror")
    status := "active"
    last_action := "created"
    deleted_at := none
    do_not_mirror := false
    metadata_source_event_id := some src.event_id
    is_all_day := src.is_all_day }

/-- Store plus remote-service state threaded through a mirroring run;
`nextId` feeds fresh remote ids to `create_mirror_event`, which is
modelled in its nominal (non-erroring) case. -/
structure MirrorState where
  db : List EventRow
  remote : List RemoteEvent
  nextId : Nat
deriving DecidableEq, Repr

inductive MirrorOutcome where
  | created
  | alreadyMirrored
deriving DecidableEq, Repr

/-- The advisory-locked per-target block of
`PersonalFamilyMirror.mirror_calendar` (lines 300-364 for the
subcalendar, 369-432 for the busy work mirror): search the target
calendar for an existing mirror of this source; when found, adopt it —
upsert the store row against the found remote id — and report
already-mirrored; otherwise create the remote event (fresh id, provenance
metadata) and upsert the store row against it. -/
def ensure_mirror (srcCal target etype : String) (busy : Bool) (src : EventRow)
    (st : MirrorState) : MirrorState × MirrorOutcome :=
  match find_mirror_on_google_calendar st.remote target src.event_id src.start_time
      (mirrorQuery busy src) with
  | some gid =>
      ({ st with db := upsert_mirror_event st.db (mirrorRow gid src srcCal target etype busy) },
        .alreadyMirrored)
  | none =>
      let gid := "gcal-" ++ toString st.nextId
      ({ db := upsert_mirror_event st.db (mirrorRow gid src srcCal target etype busy)
         remote := st.remote ++
           [{ id := gid
              calendar := target
              summary := if busy then "Busy" else src.summary
              start_time := src.start_time
              end_time := src.end_time
              source_event_id := some src.event_id }]
         nextId := st.nextId + 1 }, .created)

/-- `n` sequential invocations of `ensure_mirror` for the same source and
target, with no intervening external changes. -/
def iterate_ensure_mirror (srcCal target etype : String) (busy : Bool) (src : EventRow) :
    Nat → MirrorState → MirrorState × List MirrorOutcome
  | 0, st => (st, [])
  | n + 1, st =>
      let step := ensure_mirror srcCal target etype busy src st
      let rest := iterate_ensure_mirror srcCal target etype busy src n step.1
      (rest.1, step.2 :: rest.2)

/-- Remote events on `target` carrying provenance for source `sid`. -/
def remoteMirrorCount (remote : List RemoteEvent) (target sid : String) : Nat :=
  remote.countP (fun ev => decide (ev.calendar = target ∧ ev.source_event_id = some sid))

theorem find_mirror_eq_none (remote : List RemoteEvent) (target sid : String)
    (startT : Nat) (q : String)
    (h : ∀ ev ∈ remote, ¬(ev.calendar = target ∧ ev.source_event_id = some sid)) :
    find_mirror_on_google_calendar remote target sid startT q = none := by
  unfold find_mirror_on_google_calendar
  rw [Option.map_eq_none']
  rw [List.find?_eq_none]
  intro ev hev
  obtain ⟨hmem, hfil⟩ := List.mem_filter.mp hev
  simp only [decide_eq_true_eq] at hfil ⊢
  intro hsrc
  exact h ev hmem ⟨hfil.1, hsrc⟩

/-- The remote event the create arm appends satisfies both the listing
filter (for the query the next search will use) and the provenance
check. -/
theorem created_event_found (remote : List RemoteEvent) (target sid : String)
    (startT : Nat) (q : String) (ev0 : RemoteEvent)
    (h : ∀ ev ∈ remote, ¬(ev.calendar = target ∧ ev.source_event_id = some sid))
    (hcal : ev0.calendar = target) (hstart : ev0.start_time = startT)
    (hq : q = "" ∨ ev0.summary = q) (hsrc : ev0.source_event_id = some sid) :
    find_mirror_on_google_calendar (remote ++ [ev0]) target sid startT q = some ev0.id := by
  unfold find_mirror_on_google_calendar
  rw [List.filter_append]
  have hfil : (List.filter (fun ev => decide (ev.calendar = target ∧ startT ≤ ev.start_time ∧
      ev.start_time < startT + 60 ∧ (q = "" ∨ ev.summary = q))) [ev0]) = [ev0] := by
    simp [hcal, hstart, hq]
  rw [hfil, List.find?_append]
  have hnone : (remote.filter (fun ev => decide (ev.calendar = target ∧ startT ≤ ev.start_time ∧
      ev.start_time < startT + 60 ∧ (q = "" ∨ ev.summary = q)))).find?
      (fun ev => decide (ev.source_event_id = some sid)) = none := by
    rw [List.find?_eq_none]
    intro ev hev
    obtain ⟨hmem, hf⟩ := List.mem_filter.mp hev
    simp only [decide_eq_true_eq] at hf ⊢
    intro hs
    exact h ev hmem ⟨hf.1, hs⟩
  rw [hnone]
  simp [hsrc]

/-- The state invariant after a successful mirror creation: the search
finds a mirror, the store holds exactly one active row for the pair, and
the remote calendar holds exactly one provenance-tagged event. -/
def mirrorInv (src : EventRow) (target : String) (busy : Bool) (st : MirrorState) : Prop :=
  (find_mirror_on_google_calendar st.remote target src.event_id src.start_time
      (mirrorQuery busy src)).isSome = true ∧
  activeCount st.db src.event_id target = 1 ∧
  remoteMirrorCount st.remote target src.event_id = 1

theorem ensure_mirror_step_already (srcCal target etype : String) (busy : Bool)
    (src : EventRow) (st : MirrorState) (hinv : mirrorInv src target busy st) :
    (ensure_mirror srcCal target etype busy src st).2 = .alreadyMirrored ∧
    (ensure_mirror srcCal target etype busy src st).1.remote = st.remote ∧
    (ensure_mirror srcCal target etype busy src st).1.db.length = st.db.length ∧
    mirrorInv src target busy (ensure_mirror srcCal target etype busy src st).1 := by
  obtain ⟨hfind, hdb, hrem⟩ := hinv
  rw [Option.isSome_iff_exists] at hfind
  obtain ⟨gid, hgid⟩ := hfind
  have hres : ensure_mirror srcCal target etype busy src st =
      ({ st with db := upsert_mirror_event st.db (mirrorRow gid src srcCal target etype busy) },
        .alreadyMirrored) := by
    unfold ensure_mirror
    rw [hgid]
  rw [hres]
  have hpos : 0 < activeCount st.db src.event_id
      (mirrorRow gid src srcCal target etype busy).current_calendar := by
    show 0 < activeCount st.db src.event_id target
    omega
  have hupd := upsert_update_of_active st.db (mirrorRow gid src srcCal target etype busy)
    src.event_id rfl hpos
  refine ⟨rfl, rfl, ?_, ?_, ?_, ?_⟩
  · rw [hupd, List.length_map]
  · rw [Option.isSome_iff_exists]
    exact ⟨gid, hgid⟩
  · rw [hupd]
    show activeCount (List.map _ st.db) src.event_id target = 1
    rw [activeCount_map_update]
    exact hdb
  · exact hrem

theorem ensure_mirror_step_creates (srcCal target etype : String) (busy : Bool)
    (src : EventRow) (st : MirrorState)
    (hre : ∀ ev ∈ st.remote, ¬(ev.calendar = target ∧ ev.source_event_id = some src.event_id))
    (hdb : activeCount st.db src.event_id target = 0) :
    (ensure_mirror srcCal target etype busy src st).2 = .created ∧
    (ensure_mirror srcCal target etype busy src st).1.remote.length = st.remote.length + 1 ∧
    mirrorInv src target busy (ensure_mirror srcCal target etype busy src st).1 := by
  have hnone := find_mirror_eq_none st.remote target src.event_id src.start_time
    (mirrorQuery busy src) hre
  have hres : ensure_mirror srcCal target etype busy src st =
      ({ db := upsert_mirror_event st.db
           (mirrorRow ("gcal-" ++ toString st.nextId) src srcCal target etype busy)
         remote := st.remote ++
           [{ id := "gcal-" ++ toString st.nextId
              calendar := target
              summary := if busy then "Busy" else src.summary
              start_time := src.start_time
              end_time := src.end_time
              source_event_id := some src.event_id }]
         nextId := st.nextId + 1 }, .created) := by
    unfold ensure_mirror
    rw [hnone]
  rw [hres]
  have hq : mirrorQuery busy src = "" ∨
      (if busy then "Busy" else src.summary) = mirrorQuery busy src := by
    unfold mirrorQuery
    by_cases hb : (if busy then "Busy" else src.summary) = "Busy"
    · rw [if_pos hb]
      exact Or.inl rfl
    · rw [if_neg hb]
      exact Or.inr rfl
  refine ⟨rfl, by simp, ?_, ?_, ?_⟩
  · rw [Option.isSome_iff_exists]
    refine ⟨"gcal-" ++ toString st.nextId, ?_⟩
    exact created_event_found st.remote target src.event_id src.start_time
      (mirrorQuery busy src) _ hre rfl rfl hq rfl
  · have hle : activeCount st.db src.event_id
        (mirrorRow ("gcal-" ++ toString st.nextId) src srcCal target etype busy).current_calendar
          ≤ 1 := by
      show activeCount st.db src.event_id target ≤ 1
      omega
    exact activeCount_upsert_self st.db
      (mirrorRow ("gcal-" ++ toString st.nextId) src srcCal target etype busy)
      src.event_id rfl rfl hle
  · show remoteMirrorCount (st.remote ++ [_]) target src.event_id = 1
    unfold remoteMirrorCount at *
    rw [List.countP_append, List.countP_singleton]
    have h0 : st.remote.countP (fun ev =>
        decide (ev.calendar = target ∧ ev.source_event_id = some src.event_id)) = 0 := by
      rw [List.countP_eq_zero]
      intro ev hev
      simp only [decide_eq_true_eq]
      exact hre ev hev
    rw [h0]
    simp

theorem iterate_from_inv (srcCal target etype : String) (busy : Bool) (src : EventRow)
    (n : Nat) : ∀ st : MirrorState, mirrorInv src target busy st →
      (iterate_ensure_mirror srcCal target etype busy src n st).2 =
        List.replicate n .alreadyMirrored ∧
      (iterate_ensure_mirror srcCal target etype busy src n st).1.remote = st.remote ∧
      mirrorInv src target busy (iterate_ensure_mirror srcCal target etype busy src n st).1 := by
  induction n with
  | zero => intro st hinv; exact ⟨rfl, rfl, hinv⟩
  | succ m ih =>
    intro st hinv
    obtain ⟨hout, hrem, -, hinv'⟩ := ensure_mirror_step_already srcCal target etype busy src st hinv
    obtain ⟨ihout, ihrem, ihinv⟩ := ih _ hinv'
    refine ⟨?_, ?_, ihinv⟩
    · show (ensure_mirror srcCal target etype busy src st).2 ::
          (iterate_ensure_mirror srcCal target etype busy src m
            (ensure_mirror srcCal target etype busy src st).1).2 =
        List.replicate (m + 1) MirrorOutcome.alreadyMirrored
      rw [ihout, hout, List.replicate_succ]
    · show (iterate_ensure_mirror srcCal target etype busy src m
            (ensure_mirror srcCal target etype busy src st).1).1.remote = st.remote
      rw [ihrem, hrem]

/-- Claim C2: starting from a state where the target calendar holds no
provenance-tagged remote event for source `src` and the store holds no
active row for `(src, target)`, `n + 1` sequential runs of the
mirror-creation operation report `created` once and `already-mirrored`
(the adopt-existing arm) thereafter, perform exactly one remote create in
total, and leave exactly one active store row and exactly one remote
event for the pair. -/
theorem C2_idempotent_mirroring (st0 : MirrorState) (src : EventRow)
    (srcCal target etype : String) (busy : Bool) (n : Nat)
    (hre : ∀ ev ∈ st0.remote, ¬(ev.calendar = target ∧ ev.source_event_id = some src.event_id))
    (hdb : activeCount st0.db src.event_id target = 0) :
    (iterate_ensure_mirror srcCal target etype busy src (n + 1) st0).2 =
      .created :: List.replicate n .alreadyMirrored ∧
    activeCount (iterate_ensure_mirror srcCal target etype busy src (n + 1) st0).1.db
      src.event_id target = 1 ∧
    remoteMirrorCount (iterate_ensure_mirror srcCal target etype busy src (n + 1) st0).1.remote
      target src.event_id = 1 ∧
    (iterate_ensure_mirror srcCal target etype busy src (n + 1) st0).1.remote.length =
      st0.remote.length + 1 := by
  obtain ⟨hout1, hlen1, hinv1⟩ :=
    ensure_mirror_step_creates srcCal target etype busy src st0 hre hdb
  obtain ⟨houtn, hremn, hinvn⟩ := iterate_from_inv srcCal target etype busy src n
    (ensure_mirror srcCal target etype busy src st0).1 hinv1
  refine ⟨?_, hinvn.2.1, hinvn.2.2, ?_⟩
  · show (ensure_mirror srcCal target etype busy src st0).2 ::
        (iterate_ensure_mirror srcCal target etype busy src n
          (ensure_mirror srcCal target etype busy src st0).1).2 =
      MirrorOutcome.created :: List.replicate n MirrorOutcome.alreadyMirrored
    rw [houtn, hout1]
  · show (iterate_ensure_mirror srcCal target etype busy src n
        (ensure_mirror srcCal target etype busy src st0).1).1.remote.length =
      st0.remote.length + 1
    rw [hremn, hlen1]

/-- A source event on the personal calendar, used as concrete input. -/
def sampleSourceRow : EventRow :=
  { event_id := "src-1"
    ical_uid := some "uid-1"
    summary := "Advising"
    description := "with student"
    location := "office"
    start_time := 1000
    end_time := 1600
    source_calendar := "personal"
    current_calendar := "personal"
    event_type := "personal"
    status := "active"
    last_action := "created"
    deleted_at := none
    do_not_mirror := false
    metadata_source_event_id := none
    is_all_day := false }

theorem C2_idempotent_mirroring_witness :
    (iterate_ensure_mirror "personal" "work" "personal" true sampleSourceRow (2 + 1)
        ⟨[], [], 0⟩).2 =
      .created :: List.replicate 2 .alreadyMirrored ∧
    activeCount (iterate_ensure_mirror "personal" "work" "personal" true sampleSourceRow
        (2 + 1) ⟨[], [], 0⟩).1.db sampleSourceRow.event_id "work" = 1 ∧
    remoteMirrorCount (iterate_ensure_mirror "personal" "work" "personal" true sampleSourceRow
        (2 + 1) ⟨[], [], 0⟩).1.remote "work" sampleSourceRow.event_id = 1 ∧
    (iterate_ensure_mirror "personal" "work" "personal" true sampleSourceRow
        (2 + 1) ⟨[], [], 0⟩).1.remote.length = ([] : List RemoteEvent).length + 1 :=
  C2_idempotent_mirroring ⟨[], [], 0⟩ sampleSourceRow "personal" "work" "personal" true 2
    (by intro ev hev; cases hev) (by decide)

inductive ProcessOutcome where
  | suppressed
  | mirrored
deriving DecidableEq, Repr

/-- The per-source-event body of `PersonalFamilyMirror.mirror_calendar`
(lines 287-432): when `(ical_uid, event_type)` is marked do-not-mirror the
event is skipped outright — no lock, no search, no store upsert, no remote
create; otherwise the subcalendar mirror and the busy work mirror are each
ensured under their advisory locks. -/
def process_event (srcCal subcal work etype : String) (ev : EventRow)
    (st : MirrorState) : MirrorState × ProcessOutcome :=
  if check_do_not_mirror st.db ev.ical_uid etype then (st, .suppressed)
  else
    let r1 := ensure_mirror srcCal subcal etype false ev st
    let r2 := ensure_mirror srcCal work etype true ev r1.1
    (r2.1, .mirrored)

/-- The mirror upsert never touches `ical_uid`, `event_type` or
`do_not_mirror` and never removes rows, so a do-not-mirror mark
survives any upsert. -/
theorem check_do_not_mirror_upsert (db : List EventRow) (e : EventRow)
    (u etype : String)
    (h : check_do_not_mirror db (some u) etype = true) :
    check_do_not_mirror (upsert_mirror_event db e) (some u) etype = true := by
  unfold check_do_not_mirror at h ⊢
  rw [List.any_eq_true] at h
  obtain ⟨r, hr, hp⟩ := h
  rw [List.any_eq_true]
  cases hm : e.metadata_source_event_id with
  | none =>
    have : upsert_mirror_event db e = db ++ [e] := by
      unfold upsert_mirror_event
      rw [hm]
    rw [this]
    exact ⟨r, List.mem_append_left _ hr, hp⟩
  | some sid =>
    rcases Nat.eq_zero_or_pos (activeCount db sid e.current_calendar) with h0 | hpos
    · rw [upsert_insert_of_no_active db e sid hm h0]
      exact ⟨r, List.mem_append_left _ hr, hp⟩
    · rw [upsert_update_of_active db e sid hm hpos]
      refine ⟨if activeMirrorMatch r sid e.current_calendar then updateMutable r e else r,
        List.mem_map_of_mem _ hr, ?_⟩
      by_cases hmr : activeMirrorMatch r sid e.current_calendar = true
      · rw [if_pos hmr]
        exact hp
      · rw [if_neg hmr]
        exact hp

/-- Whatever `ensure_mirror` does, its store state is one upsert away from
the previous one. -/
theorem ensure_mirror_db_shape (srcCal target etype : String) (busy : Bool)
    (src : EventRow) (st : MirrorState) :
    ∃ row, (ensure_mirror srcCal target etype busy src st).1.db =
      upsert_mirror_event st.db row := by
  unfold ensure_mirror
  cases hf : find_mirror_on_google_calendar st.remote target src.event_id src.start_time
      (mirrorQuery busy src) with
  | some gid => exact ⟨mirrorRow gid src srcCal target etype busy, rfl⟩
  | none => exact ⟨mirrorRow ("gcal-" ++ toString st.nextId) src srcCal target etype busy, rfl⟩

/-- Claim C6: once some store row marks `(ical_uid = u, event_type)` as
do-not-mirror, processing any source event carrying that `ical_uid` —
whatever its current title, times or location — returns the suppressed
outcome with the state untouched (no store upsert, no remote create); and
processing any other event leaves the mark in place, so every later
attempt for the pair is suppressed too. -/
theorem C6_suppression_sticky (st : MirrorState) (ev : EventRow) (u : String)
    (srcCal subcal work etype : String)
    (huid : ev.ical_uid = some u)
    (hflag : check_do_not_mirror st.db (some u) etype = true) :
    process_event srcCal subcal work etype ev st = (st, .suppressed) ∧
    ∀ ev' : EventRow,
      check_do_not_mirror ((process_event srcCal subcal work etype ev' st).1).db
        (some u) etype = true := by
  constructor
  · unfold process_event
    rw [huid, if_pos hflag]
  · intro ev'
    unfold process_event
    by_cases hch : check_do_not_mirror st.db ev'.ical_uid etype = true
    · rw [if_pos hch]
      exact hflag
    · rw [if_neg hch]
      obtain ⟨row1, hrow1⟩ := ensure_mirror_db_shape srcCal subcal etype false ev' st
      obtain ⟨row2, hrow2⟩ := ensure_mirror_db_shape srcCal work etype true ev'
        (ensure_mirror srcCal subcal etype false ev' st).1
      show check_do_not_mirror (ensure_mirror srcCal work etype true ev'
        (ensure_mirror srcCal subcal etype false ev' st).1).1.db (some u) etype = true
      rw [hrow2, hrow1]
      exact check_do_not_mirror_upsert _ row2 u etype
        (check_do_not_mirror_upsert _ row1 u etype hflag)

/-- A store row recording that the user removed this mirror before. -/
def suppressedMarkRow : EventRow :=
  { sampleSourceRow with
    event_id := "src-1-old-mirror"
    current_calendar := "personal-events"
    do_not_mirror := true }

theorem C6_suppression_sticky_witness :
    process_event "personal" "personal-events" "work" "personal" sampleSourceRow
        ⟨[suppressedMarkRow], [], 0⟩ = (⟨[suppressedMarkRow], [], 0⟩, .suppressed) ∧
    check_do_not_mirror ((process_event "personal" "personal-events" "work" "personal"
        { sampleSourceRow with summary := "renamed since" }
        ⟨[suppressedMarkRow], [], 0⟩).1).db (some "uid-1") "personal" = true := by
  have h := C6_suppression_sticky ⟨[suppressedMarkRow], [], 0⟩ sampleSourceRow "uid-1"
    "personal" "personal-events" "work" "personal" rfl (by decide)
  exact ⟨h.1, h.2 { sampleSourceRow with summary := "renamed since" }⟩

/-! ## Fingerprints (`src/calpal/sync/twentyfive_live_sync.py` and
`src/src/twentyfive_live_sync.py`) -/

/-- `s.startswith(pre)`, computed on the character lists. -/
def strHasPrefix (s pre : String) : Bool :=
  pre.toList.isPrefixOf s.toList

/-- `pat in l` — substring occurrence, computed on character lists. -/
def containsSeq (pat : List Char) : List Char → Bool
  | [] => pat.isEmpty
  | x :: xs => pat.isPrefixOf (x :: xs) || containsSeq pat xs

/-- `l.replace(pat, '')` for a non-empty `pat`: every occurrence of the
pattern is removed, scanning left to right. -/
def removeAllSeq (pat : List Char) : List Char → List Char
  | [] => []
  | x :: xs =>
    if h : pat ≠ [] ∧ pat.isPrefixOf (x :: xs) = true then
      removeAllSeq pat ((x :: xs).drop pat.length)
    else
      x :: removeAllSeq pat xs
termination_by l => l.length
decreasing_by
  · obtain ⟨hne, -⟩ := h
    cases pat with
    | nil => exact absurd rfl hne
    | cons a t =>
      simp [List.length_drop]
      omega
  · simp

/-- Splitting a character list at every occurrence of a separator. -/
def splitOnChar (c : Char) : List Char → List (List Char)
  | [] => [[]]
  | x :: xs =>
    if x = c then [] :: splitOnChar c xs
    else
      match splitOnChar c xs with
      | [] => [[x]]
      | g :: gs => (x :: g) :: gs

/-- Python's `.strip()`: leading and trailing whitespace removed. -/
def trimChars (l : List Char) : List Char :=
  ((l.dropWhile Char.isWhitespace).reverse.dropWhile Char.isWhitespace).reverse

/-- The validity test both extractors apply to a candidate profile value:
non-empty and either starting with `Rsrv_` or containing a digit. -/
def isReservationProfile (p : String) : Bool :=
  p ≠ "" && (strHasPrefix p "Rsrv_" || p.toList.any (fun c => c.isDigit))

/-- `start_dt.split('T')[0] if 'T' in start_dt else start_dt[:10]`. -/
def eventDate (s : String) : String :=
  if s.toList.contains 'T' then String.mk (s.toList.takeWhile (fun c => c ≠ 'T'))
  else String.mk (s.toList.take 10)

/-- The fields of a 25Live reservation the extractor reads. -/
structure Reservation where
  profile_name : Option String
  event_start_dt : String
deriving DecidableEq, Repr

/-- `TwentyFiveLiveSync._extract_25live_reservation_id`
(`src/calpal/sync/twentyfive_live_sync.py`, lines 394-405): a valid
`profile_name` is the identifier, suffixed with `_` and the event's start
date when `event_start_dt` is non-empty, so recurring instances sharing a
base identifier stay distinct. -/
def extract_25live_reservation_id (res : Reservation) : Option String :=
  match res.profile_name with
  | none => none
  | some p =>
    if isReservationProfile p then
      if res.event_start_dt ≠ "" then some (p ++ "_" ++ eventDate res.event_start_dt)
      else some p
    else none

/-- The fields of a GFU calendar event / reservation dict the legacy
extractor and signature read.  The nested `start` / `end` dicts are
carried as their `dateTime` and `date` entries. -/
structure GfuEventData where
  description : String
  profile_name : Option String
  reservation_profile_name : Option String
  summary : String
  start_dateTime : Option String
  start_date : Option String
  end_dateTime : Option String
  end_date : Option String
  location : String
deriving DecidableEq, Repr

/-- `event_data.get('start', {}).get('dateTime', ...get('date', ''))`. -/
def gfuStart (e : GfuEventData) : String :=
  e.start_dateTime.getD (e.start_date.getD "")

/-- `event_data.get('end', {}).get('dateTime', ...get('date', ''))`. -/
def gfuEnd (e : GfuEventData) : String :=
  e.end_dateTime.getD (e.end_date.getD "")

/-- One line of the description scan: a line starting with `'Profile: '`
yields its `replace('Profile: ', '').strip()` value when that value
passes the validity test. -/
def lineProfileValue (line : List Char) : Option String :=
  if "Profile: ".toList.isPrefixOf line then
    if isReservationProfile (String.mk (trimChars (removeAllSeq "Profile: ".toList line))) then
      some (String.mk (trimChars (removeAllSeq "Profile: ".toList line)))
    else none
  else none

/-- The description arm of the legacy extractor: when `'Profile: '`
occurs in the description, the first line whose `Profile: ` value is
valid wins. -/
def profileFromDescription (desc : String) : Option String :=
  if containsSeq "Profile: ".toList desc.toList then
    (splitOnChar (Char.ofNat 0x0A) desc.toList).findSome? lineProfileValue
  else none

/-- `TwentyFiveLiveSync._extract_25live_reservation_id`
(`src/src/twentyfive_live_sync.py`, lines 185-211): description first,
then the `profile_name` field, then the nested reservation object. -/
def extract_25live_reservation_id_gfu (e : GfuEventData) : Option String :=
  match profileFromDescription e.description with
  | some p => some p
  | none =>
    match e.profile_name with
    | some p =>
      if p ≠ "" && isReservationProfile p then some p
      else
        match e.reservation_profile_name with
        | some q => if q ≠ "" && isReservationProfile q then some q else none
        | none => none
    | none =>
      match e.reservation_profile_name with
      | some q => if q ≠ "" && isReservationProfile q then some q else none
      | none => none

/-- `TwentyFiveLiveSync._create_gfu_event_signature`
(`src/src/twentyfive_live_sync.py`, lines 212-226): the reservation id
when one is embedded, else the md5 of
`f"{summary}-{start}-{end}-{location}"`.  `hashlib.md5` is an external
primitive, passed as a parameter. -/
def create_gfu_event_signature (md5 : String → String) (e : GfuEventData) : String :=
  match extract_25live_reservation_id_gfu e with
  | some rid => rid
  | none =>
      md5 (e.summary ++ "-" ++ gfuStart e ++ "-" ++ gfuEnd e ++ "-" ++ e.location)

/-- Claim C7: the fingerprint prefers the embedded reservation identifier
— suffixed with the event's start date when one is available — and
otherwise is the content hash computed over exactly
`(title, start, end, location)`, so any two events without embedded
identifiers that agree on those four fields get equal fingerprints,
whatever the hash function is. -/
theorem C7_fingerprint_id_else_content_hash :
    (∀ (res : Reservation) (p : String), res.profile_name = some p →
        isReservationProfile p = true →
        extract_25live_reservation_id res =
          some (if res.event_start_dt ≠ "" then p ++ "_" ++ eventDate res.event_start_dt
            else p)) ∧
    (∀ (md5 : String → String) (e : GfuEventData),
        extract_25live_reservation_id_gfu e = none →
        create_gfu_event_signature md5 e =
          md5 (e.summary ++ "-" ++ gfuStart e ++ "-" ++ gfuEnd e ++ "-" ++ e.location)) ∧
    (∀ (md5 : String → String) (e1 e2 : GfuEventData),
        extract_25live_reservation_id_gfu e1 = none →
        extract_25live_reservation_id_gfu e2 = none →
        e1.summary = e2.summary → gfuStart e1 = gfuStart e2 →
        gfuEnd e1 = gfuEnd e2 → e1.location = e2.location →
        create_gfu_event_signature md5 e1 = create_gfu_event_signature md5 e2) := by
  have hsig : ∀ (md5 : String → String) (e : GfuEventData),
      extract_25live_reservation_id_gfu e = none →
      create_gfu_event_signature md5 e =
        md5 (e.summary ++ "-" ++ gfuStart e ++ "-" ++ gfuEnd e ++ "-" ++ e.location) := by
    intro md5 e he
    unfold create_gfu_event_signature
    rw [he]
  refine ⟨?_, hsig, ?_⟩
  · intro res p hp hval
    have hred : extract_25live_reservation_id res =
        if isReservationProfile p then
          if res.event_start_dt ≠ "" then some (p ++ "_" ++ eventDate res.event_start_dt)
          else some p
        else none := by
      unfold extract_25live_reservation_id
      rw [hp]
    rw [hred, if_pos hval]
    by_cases hd : res.event_start_dt ≠ ""
    · rw [if_pos hd, if_pos hd]
    · rw [if_neg hd, if_neg hd]
  · intro md5 e1 e2 h1 h2 hs hst hen hloc
    rw [hsig md5 e1 h1, hsig md5 e2 h2, hs, hst, hen, hloc]

/-- An event without any embedded reservation identifier. -/
def sampleGfuNoId : GfuEventData :=
  { description := ""
    profile_name := none
    reservation_profile_name := none
    summary := "Lecture"
    start_dateTime := some "2025-03-01T10:00:00"
    start_date := none
    end_dateTime := some "2025-03-01T11:00:00"
    end_date := none
    location := "Room 5" }

/-- Same content fields, different description (no profile in it). -/
def sampleGfuNoId2 : GfuEventData :=
  { sampleGfuNoId with description := "same event seen elsewhere" }

theorem C7_fingerprint_id_else_content_hash_witness :
    extract_25live_reservation_id
        { profile_name := some "Rsrv_42", event_start_dt := "2025-03-01T10:00:00" } =
      some (if ("2025-03-01T10:00:00" : String) ≠ "" then
        "Rsrv_42" ++ "_" ++ eventDate "2025-03-01T10:00:00" else "Rsrv_42") ∧
    create_gfu_event_signature (fun s => "h" ++ s) sampleGfuNoId =
      (fun s => "h" ++ s) (sampleGfuNoId.summary ++ "-" ++ gfuStart sampleGfuNoId ++ "-" ++
        gfuEnd sampleGfuNoId ++ "-" ++ sampleGfuNoId.location) ∧
    create_gfu_event_signature (fun s => "h" ++ s) sampleGfuNoId =
      create_gfu_event_signature (fun s => "h" ++ s) sampleGfuNoId2 := by
  have h := C7_fingerprint_id_else_content_hash
  exact ⟨h.1 { profile_name := some "Rsrv_42", event_start_dt := "2025-03-01T10:00:00" }
      "Rsrv_42" rfl (by decide),
    h.2.1 (fun s => "h" ++ s) sampleGfuNoId (by decide),
    h.2.2 (fun s => "h" ++ s) sampleGfuNoId sampleGfuNoId2 (by decide) (by decide)
      rfl rfl rfl rfl⟩

/-! ## Orphaned-mirror sweep (`src/src/work_calendar_reconciler.py`) -/

/-- The `last_action` the sweep records, from the outcome of the remote
delete issued through `_api_call_with_retry` (lines 466-484): an actual
result means the delete succeeded, `None` is read as already gone
(404/410), and a raised error is caught as a cleanup failure. -/
def orphanAction (o : CallOutcome) : String :=
  match o with
  | .value _ => "orphaned_mirror_removed"
  | .noneResult => "already_removed"
  | .raised _ => "orphaned_mirror_cleanup_failed"

/-- The sweep's initial SELECT (lines 414-429): active, not soft-deleted
work-calendar rows whose metadata carries a `source_event_id`. -/
def isActiveWorkMirror (work : String) (r : EventRow) : Bool :=
  decide (r.current_calendar = work ∧ r.deleted_at = none ∧ r.status = "active" ∧
    r.metadata_source_event_id ≠ none)

/-- The per-mirror source lookup (lines 447-456): the `deleted_at` of the
first row matching `(event_id = source_id, current_calendar = source_cal)`,
or nothing when no such row exists. -/
def sourceDeletedAt (db : List EventRow) (sid scal : String) : Option Nat :=
  (db.find? (fun r => decide (r.event_id = sid ∧ r.current_calendar = scal))).bind
    (fun r => r.deleted_at)

/-- The row-level effect of the sweep's UPDATE (lines 487-503): rows
matching `(event_id, work calendar)` that are not already soft-deleted get
`deleted_at = NOW()`, `status = 'deleted'` and the chosen action. -/
def rowMark (now : Nat) (work eid action : String) (r : EventRow) : EventRow :=
  if r.event_id = eid ∧ r.current_calendar = work ∧ r.deleted_at = none then
    { r with deleted_at := some now, status := "deleted", last_action := action }
  else r

/-- The sweep's UPDATE applied to the whole table. -/
def markMirrorDeleted (now : Nat) (work eid action : String)
    (db : List EventRow) : List EventRow :=
  db.map (rowMark now work eid action)

/-- One iteration of the mirror loop in
`WorkCalendarReconciler.reconcile_orphaned_mirrors` (lines 439-504),
threading the table and the list of remote deletes issued so far: skip on
a falsy source id or source calendar; on a soft-deleted source, issue the
remote delete and soft-delete the mirror row with the outcome's action. -/
def sweepStep (gw : String → Nat → ApiResponse) (work : String) (now : Nat)
    (acc : List EventRow × List String) (m : EventRow) : List EventRow × List String :=
  if m.metadata_source_event_id.getD "" = "" ∨ m.source_calendar = "" then acc
  else if sourceDeletedAt acc.1 (m.metadata_source_event_id.getD "") m.source_calendar
      ≠ none then
    (markMirrorDeleted now work m.event_id
        (orphanAction (api_call_with_retry (gw m.event_id)).1) acc.1,
      acc.2 ++ [m.event_id])
  else acc

/-- `WorkCalendarReconciler.reconcile_orphaned_mirrors` (lines 400-519):
fold the sweep over the snapshot of active work-calendar mirrors,
returning the updated table and the remote deletes issued. -/
def reconcile_orphaned_mirrors (gw : String → Nat → ApiResponse) (work : String)
    (now : Nat) (db : List EventRow) : List EventRow × List String :=
  (db.filter (isActiveWorkMirror work)).foldl (sweepStep gw work now) (db, [])

/-- The soft-deleted source record referenced by `sampleMirrorRow`. -/
def orphanSourceRow : EventRow :=
  { sampleSourceRow with
    deleted_at := some 100
    status := "deleted"
    last_action := "deleted" }

/-- Claim C3 is false as stated: here mirror `g-abc` is active on the
swept calendar, its source is soft-deleted, and the remote delete finds
the event already gone (404) — which the sweep tolerates — yet the store
row is soft-deleted with `last_action = already_removed`, not
`orphaned_mirror_removed`. -/
theorem C3_counterexample_already_gone_action :
    (reconcile_orphaned_mirrors (fun _ _ => ApiResponse.http 404 false) "work" 200
        [orphanSourceRow, sampleMirrorRow]).1 =
      [orphanSourceRow,
        { sampleMirrorRow with
          deleted_at := some 200
          status := "deleted"
          last_action := "already_removed" }] ∧
    "already_removed" ≠ "orphaned_mirror_removed" := by decide

/-- What the sweep's writes may do to a row: identity and placement are
untouched, and `deleted_at` is only ever set to the sweep's `NOW()`. -/
def goodUpd (now : Nat) (f : EventRow → EventRow) : Prop :=
  ∀ r, (f r).event_id = r.event_id ∧ (f r).current_calendar = r.current_calendar ∧
    ((f r).deleted_at = r.deleted_at ∨ (f r).deleted_at = some now)

theorem goodUpd_id (now : Nat) : goodUpd now (fun r => r) :=
  fun _ => ⟨rfl, rfl, Or.inl rfl⟩

theorem rowMark_fields (now : Nat) (work eid action : String) (r : EventRow) :
    (rowMark now work eid action r).event_id = r.event_id ∧
    (rowMark now work eid action r).current_calendar = r.current_calendar ∧
    ((rowMark now work eid action r).deleted_at = r.deleted_at ∨
      (rowMark now work eid action r).deleted_at = some now) := by
  unfold rowMark
  by_cases hc : r.event_id = eid ∧ r.current_calendar = work ∧ r.deleted_at = none
  · rw [if_pos hc]
    exact ⟨rfl, rfl, Or.inr rfl⟩
  · rw [if_neg hc]
    exact ⟨rfl, rfl, Or.inl rfl⟩

theorem rowMark_of_deleted (now : Nat) (work eid action : String) (r : EventRow)
    (h : r.deleted_at ≠ none) : rowMark now work eid action r = r := by
  unfold rowMark
  rw [if_neg]
  rintro ⟨-, -, hd⟩
  exact h hd

theorem rowMark_of_ne (now : Nat) (work eid action : String) (r : EventRow)
    (h : r.event_id ≠ eid) : rowMark now work eid action r = r := by
  unfold rowMark
  rw [if_neg]
  rintro ⟨he, -, -⟩
  exact h he

theorem goodUpd_comp (now : Nat) (work eid action : String) (f : EventRow → EventRow)
    (h : goodUpd now f) :
    goodUpd now (fun r => rowMark now work eid action (f r)) := by
  intro r
  obtain ⟨h1, h2, h3⟩ := h r
  obtain ⟨g1, g2, g3⟩ := rowMark_fields now work eid action (f r)
  refine ⟨by rw [g1, h1], by rw [g2, h2], ?_⟩
  rcases g3 with g | g
  · rcases h3 with hh | hh
    · exact Or.inl (by rw [g, hh])
    · exact Or.inr (by rw [g, hh])
  · exact Or.inr g

theorem find?_map_of_pred (f : EventRow → EventRow) (p : EventRow → Bool)
    (hp : ∀ r, p (f r) = p r) :
    ∀ db : List EventRow, (db.map f).find? p = (db.find? p).map f := by
  intro db
  induction db with
  | nil => rfl
  | cons a l ih =>
    cases hpa : p a with
    | true =>
      rw [List.map_cons, List.find?_cons_of_pos _ (by rw [hp a]; exact hpa),
        List.find?_cons_of_pos _ hpa]
      rfl
    | false =>
      rw [List.map_cons, List.find?_cons_of_neg _ (by rw [hp a]; simp [hpa]),
        List.find?_cons_of_neg _ (by simp [hpa]), ih]

/-- The source-deleted observation survives any sweep write: lookups key
on identity and placement, which the writes preserve, and a set
`deleted_at` is never cleared. -/
theorem sourceDeletedAt_map_ne_none (now : Nat) (f : EventRow → EventRow)
    (hf : goodUpd now f) (db : List EventRow) (sid scal : String)
    (h : sourceDeletedAt db sid scal ≠ none) :
    sourceDeletedAt (db.map f) sid scal ≠ none := by
  unfold sourceDeletedAt at h ⊢
  rw [find?_map_of_pred f _ (fun r => ?_) db]
  · cases hfind : db.find? (fun r => decide (r.event_id = sid ∧ r.current_calendar = scal)) with
    | none =>
      rw [hfind] at h
      exact absurd rfl h
    | some r0 =>
      rw [hfind] at h
      simp only [Option.map_some', Option.some_bind] at h ⊢
      obtain ⟨-, -, h3⟩ := hf r0
      rcases h3 with hh | hh
      · rw [hh]
        exact h
      · rw [hh]
        exact Option.some_ne_none now
  · obtain ⟨h1, h2, -⟩ := hf r
    simp [h1, h2]

/-- Folding the sweep over any list of mirrors only applies sweep writes:
the table stays a pointwise image of the original, rows whose identity
none of the mirrors share are untouched, already-soft-deleted images stay
exactly as they are, and the issued-deletes list only grows. -/
theorem sweep_fold_shape (gw : String → Nat → ApiResponse) (work : String) (now : Nat)
    (db0 : List EventRow) (ms : List EventRow) :
    ∀ (init : List EventRow × List String) (f : EventRow → EventRow),
      init.1 = db0.map f → goodUpd now f →
      ∃ g : EventRow → EventRow,
        (ms.foldl (sweepStep gw work now) init).1 = db0.map g ∧
        goodUpd now g ∧
        (∀ r : EventRow, (∀ m' ∈ ms, r.event_id ≠ m'.event_id) → g r = f r) ∧
        (∀ x ∈ init.2, x ∈ (ms.foldl (sweepStep gw work now) init).2) ∧
        (∀ r : EventRow, (f r).deleted_at ≠ none → g r = f r) := by
  induction ms with
  | nil =>
    intro init f hinit hf
    exact ⟨f, hinit, hf, fun _ _ => rfl, fun _ hx => hx, fun _ _ => rfl⟩
  | cons m ms' ih =>
    intro init f hinit hf
    by_cases hskip : m.metadata_source_event_id.getD "" = "" ∨ m.source_calendar = ""
    · have hstep : sweepStep gw work now init m = init := by
        unfold sweepStep
        rw [if_pos hskip]
      rw [List.foldl_cons, hstep]
      obtain ⟨g, h1, h2, h3, h4, h5⟩ := ih init f hinit hf
      exact ⟨g, h1, h2,
        fun r hr => h3 r (fun m' hm' => hr m' (List.mem_cons_of_mem _ hm')), h4, h5⟩
    · by_cases horph : sourceDeletedAt init.1 (m.metadata_source_event_id.getD "")
          m.source_calendar ≠ none
      · have hstep : sweepStep gw work now init m =
            (db0.map (fun r =>
              rowMark now work m.event_id
                (orphanAction (api_call_with_retry (gw m.event_id)).1) (f r)),
              init.2 ++ [m.event_id]) := by
          unfold sweepStep markMirrorDeleted
          rw [if_neg hskip, if_pos horph, hinit, List.map_map]
          rfl
        rw [List.foldl_cons, hstep]
        obtain ⟨g, h1, h2, h3, h4, h5⟩ := ih
          (db0.map (fun r =>
            rowMark now work m.event_id
              (orphanAction (api_call_with_retry (gw m.event_id)).1) (f r)),
            init.2 ++ [m.event_id])
          (fun r => rowMark now work m.event_id
            (orphanAction (api_call_with_retry (gw m.event_id)).1) (f r))
          rfl (goodUpd_comp now work m.event_id _ f hf)
        refine ⟨g, h1, h2, ?_, ?_, ?_⟩
        · intro r hr
          have hne : (f r).event_id ≠ m.event_id := by
            rw [(hf r).1]
            exact hr m (List.mem_cons_self m ms')
          have hfix : rowMark now work m.event_id
              (orphanAction (api_call_with_retry (gw m.event_id)).1) (f r) = f r :=
            rowMark_of_ne now work m.event_id _ (f r) hne
          rw [h3 r (fun m' hm' => hr m' (List.mem_cons_of_mem _ hm')), hfix]
        · intro x hx
          exact h4 x (List.mem_append_left _ hx)
        · intro r hd
          have hfix : rowMark now work m.event_id
              (orphanAction (api_call_with_retry (gw m.event_id)).1) (f r) = f r :=
            rowMark_of_deleted now work m.event_id _ (f r) hd
          rw [h5 r (by rw [hfix]; exact hd), hfix]
      · have hstep : sweepStep gw work now init m = init := by
          unfold sweepStep
          rw [if_neg hskip, if_neg horph]
        rw [List.foldl_cons, hstep]
        obtain ⟨g, h1, h2, h3, h4, h5⟩ := ih init f hinit hf
        exact ⟨g, h1, h2,
          fun r hr => h3 r (fun m' hm' => hr m' (List.mem_cons_of_mem _ hm')), h4, h5⟩

/-- A list containing a row with the wanted identity splits at the first
such row. -/
theorem exists_first_split (eid : String) :
    ∀ l : List EventRow, (∃ r ∈ l, r.event_id = eid) →
      ∃ pre m post, l = pre ++ m :: post ∧ m.event_id = eid ∧
        ∀ r ∈ pre, r.event_id ≠ eid := by
  intro l
  induction l with
  | nil =>
    rintro ⟨r, hr, -⟩
    exact absurd hr (List.not_mem_nil r)
  | cons a t ih =>
    intro ⟨r, hr, hre⟩
    by_cases ha : a.event_id = eid
    · exact ⟨[], a, t, rfl, ha, fun r' hr' => absurd hr' (List.not_mem_nil r')⟩
    · have hex : ∃ r' ∈ t, r'.event_id = eid := by
        rcases List.mem_cons.mp hr with h | h
        · rw [← h] at ha
          exact absurd hre ha
        · exact ⟨r, h, hre⟩
      obtain ⟨pre, m, post, h1, h2, h3⟩ := ih hex
      refine ⟨a :: pre, m, post, by rw [List.cons_append, h1], h2, ?_⟩
      intro r' hr'
      rcases List.mem_cons.mp hr' with h | h
      · rw [h]
        exact ha
      · exact h3 r' h

/-- Claim C3 as amended: for every active mirror `M` on the swept
calendar whose metadata names a non-empty source id and whose row names a
non-empty source calendar, with the referenced source record soft-deleted
(as the sweep's first-match lookup sees it), one run of the sweep issues
a remote delete for `M`'s event and leaves `M`'s store record
soft-deleted (`deleted_at = NOW()`, `status = deleted`) — but
`last_action` records the delete's outcome: `orphaned_mirror_removed`
only when the remote delete actually succeeded, `already_removed` when
the event was already gone, `orphaned_mirror_cleanup_failed` when the
delete failed.  `M`'s identity is assumed unique among work-calendar
rows, which is what the store's uniqueness discipline provides. -/
theorem C3_amended_orphan_sweep (gw : String → Nat → ApiResponse) (work : String)
    (now : Nat) (db : List EventRow) (M : EventRow) (sid : String)
    (hM : M ∈ db)
    (hmir : isActiveWorkMirror work M = true)
    (hsid : M.metadata_source_event_id = some sid)
    (hsid_ne : sid ≠ "")
    (hscal : M.source_calendar ≠ "")
    (hsrc : sourceDeletedAt db sid M.source_calendar ≠ none)
    (huniq : ∀ r ∈ db, r.event_id = M.event_id → r.current_calendar = work → r = M) :
    M.event_id ∈ (reconcile_orphaned_mirrors gw work now db).2 ∧
    { M with
      deleted_at := some now
      status := "deleted"
      last_action := orphanAction (api_call_with_retry (gw M.event_id)).1 }
      ∈ (reconcile_orphaned_mirrors gw work now db).1 ∧
    ∀ r ∈ (reconcile_orphaned_mirrors gw work now db).1,
      r.event_id = M.event_id → r.current_calendar = work →
      r = { M with
        deleted_at := some now
        status := "deleted"
        last_action := orphanAction (api_call_with_retry (gw M.event_id)).1 } := by
  have hmirP : M.current_calendar = work ∧ M.deleted_at = none ∧ M.status = "active" ∧
      M.metadata_source_event_id ≠ none := by
    simpa [isActiveWorkMirror] using hmir
  set Mmark := { M with
    deleted_at := some now
    status := "deleted"
    last_action := orphanAction (api_call_with_retry (gw M.event_id)).1 } with hMmark
  set mirrors := db.filter (isActiveWorkMirror work) with hmirrors
  have hMm : M ∈ mirrors := List.mem_filter.mpr ⟨hM, hmir⟩
  obtain ⟨pre, m0, post, hsplit, hm0id, hpre⟩ :=
    exists_first_split M.event_id mirrors ⟨M, hMm, rfl⟩
  have hm0mem : m0 ∈ mirrors := by
    rw [hsplit]
    exact List.mem_append_right pre (List.mem_cons_self m0 post)
  have hm0 : m0 = M := by
    obtain ⟨hm0db, hm0P⟩ := List.mem_filter.mp hm0mem
    have hm0cal : m0.current_calendar = work ∧ m0.deleted_at = none ∧
        m0.status = "active" ∧ m0.metadata_source_event_id ≠ none := by
      simpa [isActiveWorkMirror] using hm0P
    exact huniq m0 hm0db hm0id hm0cal.1
  subst hm0
  obtain ⟨f1, hdb1, hgood1, hsame1, hds1, hdel1⟩ :=
    sweep_fold_shape gw work now db pre (db, []) (fun r => r)
      (List.map_id' db).symm (goodUpd_id now)
  set st1 := pre.foldl (sweepStep gw work now) (db, ([] : List String)) with hst1
  have hrun : reconcile_orphaned_mirrors gw work now db =
      post.foldl (sweepStep gw work now) (sweepStep gw work now st1 m0) := by
    unfold reconcile_orphaned_mirrors
    rw [← hmirrors, hsplit, List.foldl_append, List.foldl_cons]
  have hf1M : f1 m0 = m0 := hsame1 m0 (fun m' hm' => (hpre m' hm').symm)
  have hgetD : m0.metadata_source_event_id.getD "" = sid := by
    rw [hsid]
    rfl
  have hnskip : ¬(m0.metadata_source_event_id.getD "" = "" ∨ m0.source_calendar = "") := by
    rw [hgetD]
    rintro (h | h)
    · exact hsid_ne h
    · exact hscal h
  have horph : sourceDeletedAt st1.1 (m0.metadata_source_event_id.getD "")
      m0.source_calendar ≠ none := by
    rw [hgetD, hdb1]
    exact sourceDeletedAt_map_ne_none now f1 hgood1 db sid m0.source_calendar hsrc
  have hstepM : sweepStep gw work now st1 m0 =
      (db.map (fun r => rowMark now work m0.event_id
          (orphanAction (api_call_with_retry (gw m0.event_id)).1) (f1 r)),
        st1.2 ++ [m0.event_id]) := by
    unfold sweepStep markMirrorDeleted
    rw [if_neg hnskip, if_pos horph, hdb1, List.map_map]
    rfl
  obtain ⟨f3, hdb3, hgood3, hsame3, hds3, hdel3⟩ :=
    sweep_fold_shape gw work now db post (sweepStep gw work now st1 m0)
      (fun r => rowMark now work m0.event_id
        (orphanAction (api_call_with_retry (gw m0.event_id)).1) (f1 r))
      (by rw [hstepM]) (goodUpd_comp now work m0.event_id _ f1 hgood1)
  have hf2M : rowMark now work m0.event_id
      (orphanAction (api_call_with_retry (gw m0.event_id)).1) (f1 m0) = Mmark := by
    rw [hf1M]
    unfold rowMark
    rw [if_pos ⟨rfl, hmirP.1, hmirP.2.1⟩, hMmark]
  have hf3M : f3 m0 = Mmark := by
    have hd : (rowMark now work m0.event_id
        (orphanAction (api_call_with_retry (gw m0.event_id)).1) (f1 m0)).deleted_at
        ≠ none := by
      rw [hf2M, hMmark]
      exact Option.some_ne_none now
    rw [hdel3 m0 hd, hf2M]
  rw [hrun]
  refine ⟨?_, ?_, ?_⟩
  · apply hds3
    rw [hstepM]
    exact List.mem_append_right _ (List.mem_cons_self _ _)
  · rw [hdb3, ← hf3M]
    exact List.mem_map_of_mem f3 hM
  · intro r hr hid hcal
    rw [hdb3] at hr
    obtain ⟨r0, hr0, hmap⟩ := List.mem_map.mp hr
    obtain ⟨he, hc, -⟩ := hgood3 r0
    rw [← hmap] at hid hcal
    have hid0 : r0.event_id = m0.event_id := by
      rw [← he]
      exact hid
    have hcal0 : r0.current_calendar = work := by
      rw [← hc]
      exact hcal
    have hr0M : r0 = m0 := huniq r0 hr0 hid0 hcal0
    rw [← hmap, hr0M, hf3M]

theorem C3_amended_orphan_sweep_witness :
    sampleMirrorRow.event_id ∈
      (reconcile_orphaned_mirrors (fun _ _ => ApiResponse.ok 1) "work" 200
        [orphanSourceRow, sampleMirrorRow]).2 ∧
    { sampleMirrorRow with
      deleted_at := some 200
      status := "deleted"
      last_action := orphanAction (api_call_with_retry
        ((fun _ _ => ApiResponse.ok 1) sampleMirrorRow.event_id)).1 }
      ∈ (reconcile_orphaned_mirrors (fun _ _ => ApiResponse.ok 1) "work" 200
        [orphanSourceRow, sampleMirrorRow]).1 ∧
    ∀ r ∈ (reconcile_orphaned_mirrors (fun _ _ => ApiResponse.ok 1) "work" 200
        [orphanSourceRow, sampleMirrorRow]).1,
      r.event_id = sampleMirrorRow.event_id → r.current_calendar = "work" →
      r = { sampleMirrorRow with
        deleted_at := some 200
        status := "deleted"
        last_action := orphanAction (api_call_with_retry
          ((fun _ _ => ApiResponse.ok 1) sampleMirrorRow.event_id)).1 } :=
  C3_amended_orphan_sweep (fun _ _ => ApiResponse.ok 1) "work" 200
    [orphanSourceRow, sampleMirrorRow] sampleMirrorRow "src-1"
    (by decide) (by decide) rfl (by decide) (by decide) (by decide) (by decide)

end CalPal
